import Mathlib

/-!
# Verification of the Research-Assistant retrieval backend

A shallow embedding of `app/main.py` and `app/services.py` (a FastAPI +
ChromaDB retrieval-augmented QA service), together with proofs about the
embedded operations.

Modelling conventions:

* The ChromaDB collection is modelled as a list of records `(id, text,
  metadata)` in insertion order.  Chroma metadata is a flat string-keyed
  mapping whose keys, for records written by this application, range over the
  ten fields of `Metadata`; `metadata.get(key)` with a possibly-missing key is
  modelled by `Option` fields.  `collection.update(ids, metadatas)` merges the
  supplied metadata keys into the existing mapping (Chroma semantics), which
  is modelled by updating only the supplied field.
* `collection.query` (embedding model + ANN search) is external; a call site
  receives its result through an oracle `queryO : String → Int → QueryResults`
  mirroring the dict shape `{documents, metadatas, distances}` returned by
  `services.query_chroma`.  Chroma guarantees the three arrays are parallel
  (equal lengths); the loops that index them in lockstep are embedded with
  `zip`, which agrees with the Python loops on all parallel-shaped results.
* Distances and scores are embedded as rationals: the claims under study are
  order/filter/truncation properties of the pipeline, independent of the
  floating-point representation.
* The Gemini call `services.generate_llm_response` is an oracle
  `llm : String → String`.
* Python exceptions raised by the per-id usage update are modelled by a
  failure oracle `fails : Nat → Bool` telling whether the body of the
  `try` in `update_usage_counts_in_chroma` raises at loop iteration `i`.
* Python `set` iteration order (`list(citations)`) is unspecified hash order;
  it is modelled as insertion order, and only membership/deduplication facts
  about citations are asserted.
* Route handlers return `Except HTTPError α`: `raise HTTPException` is
  `Except.error`.  Note `fastapi.HTTPException` subclasses `Exception`, so a
  404 raised inside a `try ... except Exception` block is caught by the
  blanket handler; the embedding of `get_journal_content` reproduces this.
-/

namespace App

/-- Flat Chroma metadata record as written/read by this application
(`metadata.get(k)` on a missing key yields `none`). -/
structure Metadata where
  id : Option String := none
  source_doc_id : Option String := none
  chunk_index : Option Int := none
  section_heading : Option String := none
  journal : Option String := none
  publish_year : Option Int := none
  usage_count : Option Int := none
  attributes : Option String := none
  link : Option String := none
  doi : Option String := none
deriving DecidableEq

/-- The pydantic `Chunk` model of `app/main.py`. -/
structure Chunk where
  id : String
  source_doc_id : String
  chunk_index : Int
  section_heading : String
  doi : Option String := none
  journal : String
  publish_year : Int
  usage_count : Int
  attributes : List String
  link : String
  text : String
deriving DecidableEq

/-- One record of the Chroma collection: `(id, document text, metadata)`. -/
structure StoreRecord where
  id : String
  text : String
  metadata : Metadata
deriving DecidableEq

/-- The Chroma collection, in insertion order. -/
abbrev Store := List StoreRecord

/-- Result shape of `chroma_collection.query` (one query text, hence the
outer lists have at most one entry in practice). -/
structure QueryResults where
  documents : List (List String)
  metadatas : List (List Metadata)
  distances : List (List Rat)

/-- `fastapi.HTTPException`: status code and detail message. -/
structure HTTPError where
  status_code : Nat
  detail : String
deriving DecidableEq

/-- Decidable equality of handler results, used to evaluate the embedded
handlers inside closed propositions. -/
instance instDecidableEqExcept {ε α : Type} [DecidableEq ε] [DecidableEq α] :
    DecidableEq (Except ε α) := fun x y =>
  match x, y with
  | .ok a, .ok b =>
      if h : a = b then isTrue (by rw [h]) else isFalse (fun he => h (Except.ok.inj he))
  | .error e, .error f =>
      if h : e = f then isTrue (by rw [h]) else isFalse (fun he => h (Except.error.inj he))
  | .ok _, .error _ => isFalse (fun he => Except.noConfusion he)
  | .error _, .ok _ => isFalse (fun he => Except.noConfusion he)

/-- An exception escaping the body of a route handler `try` block: either an
`HTTPException` raised explicitly, or another error (e.g. pydantic
validation). -/
inductive PyExc where
  | http : HTTPError → PyExc
  | validation : String → PyExc
deriving DecidableEq

/-- Python `str(e)`; Starlette formats an `HTTPException` as
`"{status_code}: {detail}"`. -/
def PyExc.str : PyExc → String
  | .http e => toString e.status_code ++ ": " ++ e.detail
  | .validation m => m

/-! ## Python primitives -/

/-- Python truthiness of `metadata.get(key)` for a string-valued key:
`None` and `""` are falsy. -/
def pyTruthyStr : Option String → Bool
  | none => false
  | some s => s != ""

/-- Python `",".join(l)`. -/
def pyJoinComma (l : List String) : String :=
  (List.intercalate [','] (l.map String.toList)).asString

/-- Python `s.split(",")` (nonempty separator). -/
def pySplitComma (s : String) : List String :=
  (s.toList.splitOn ',').map List.asString

/-- Python `set.add` on a set modelled as its insertion-ordered list of
distinct elements. -/
def pySetAdd (s : List String) (x : String) : List String :=
  if x ∈ s then s else s ++ [x]

/-- Lockstep traversal of three parallel lists, as in
`for i in range(len(xs)): xs[i], ys[i], zs[i]`. -/
def zip3 : List α → List β → List γ → List (α × β × γ)
  | a :: as, b :: bs, c :: cs => (a, b, c) :: zip3 as bs cs
  | _, _, _ => []

/-! ## Store adapter (`app/services.py`) -/

/-- One step of `chroma_collection.upsert`: an existing id is replaced in
place (last-write-wins), a new id is appended. -/
def upsert_one (store : Store) (r : StoreRecord) : Store :=
  if store.any (fun s => s.id == r.id) then
    store.map (fun s => if s.id == r.id then r else s)
  else store ++ [r]

/-- `services.upsert_chunks`: batch upsert, in order. -/
def upsert_chunks (rs : List StoreRecord) (store : Store) : Store :=
  rs.foldl upsert_one store

/-- Result shape of `chroma_collection.get` with `documents` and
`metadatas` included. -/
structure GetResults where
  documents : List String
  metadatas : List Metadata
deriving DecidableEq

/-- `services.get_chunks_by_journal_id`: exact-match filter
`where={"source_doc_id": journal_id}`. -/
def get_chunks_by_journal_id (journal_id : String) (store : Store) : GetResults :=
  let found := store.filter (fun r => r.metadata.source_doc_id == some journal_id)
  { documents := found.map (fun r => r.text), metadatas := found.map (fun r => r.metadata) }

/-- The metadata write of one loop iteration of
`services.update_usage_counts_in_chroma`:
`usage_count := metadata.get("usage_count", 0) + 1` (Chroma `update` merges
the supplied key, leaving the other metadata keys in place). -/
def bump_usage (md : Metadata) : Metadata :=
  { md with usage_count := some (md.usage_count.getD 0 + 1) }

/-- One loop iteration of `services.update_usage_counts_in_chroma`:
`get(ids=[chunk_id])`, and if a record was found, write back the incremented
`usage_count` for that id. -/
def update_one_usage (store : Store) (chunk_id : String) : Store :=
  if store.any (fun r => r.id == chunk_id) then
    store.map (fun r => if r.id == chunk_id then { r with metadata := bump_usage r.metadata } else r)
  else store

/-- The loop of `services.update_usage_counts_in_chroma`, carrying the
iteration index for the failure oracle: a raising iteration (`fails i`) is
caught by the per-iteration `try/except`, leaves the store unchanged, and
processing continues with the remaining ids. -/
def update_usage_go (fails : Nat → Bool) : Nat → List String → Store → Store
  | _, [], store => store
  | i, cid :: rest, store =>
      update_usage_go fails (i + 1) rest (if fails i then store else update_one_usage store cid)

/-- `services.update_usage_counts_in_chroma`. -/
def update_usage_counts_in_chroma (fails : Nat → Bool) (chunk_ids : List String)
    (store : Store) : Store :=
  update_usage_go fails 0 chunk_ids store

/-! ## `PUT /upload` (`main.upload_chunks`) -/

/-- The flat metadata mapping built for one chunk in `main.upload_chunks`
(`attributes` comma-joined, `doi` defaulted to `""` by `chunk.doi or ""`). -/
def chunk_metadata (c : Chunk) : Metadata where
  id := some c.id
  source_doc_id := some c.source_doc_id
  chunk_index := some c.chunk_index
  section_heading := some c.section_heading
  journal := some c.journal
  publish_year := some c.publish_year
  usage_count := some c.usage_count
  attributes := some (pyJoinComma c.attributes)
  link := some c.link
  doi := some (match c.doi with | some d => if d = "" then "" else d | none => "")

/-- The `(id, text, metadata)` record uploaded for one chunk. -/
def chunk_record (c : Chunk) : StoreRecord :=
  { id := c.id, text := c.text, metadata := chunk_metadata c }

/-- `main.upload_chunks`: build the flattened records and upsert them. -/
def upload_chunks (chunks : List Chunk) (store : Store) : Except HTTPError (String × Store) :=
  let n := chunks.length
  .ok ("Successfully uploaded and processed " ++ toString n ++ " chunks to ChromaDB.",
    upsert_chunks (chunks.map chunk_record) store)

/-! ## `GET /{journal_id}` (`main.get_journal_content`) -/

/-- The attribute decoding expression of `main.get_journal_content`:
`metadata.get("attributes", "").split(",") if metadata.get("attributes") else []`. -/
def readAttributes (md : Metadata) : List String :=
  if pyTruthyStr md.attributes then pySplitComma (md.attributes.getD "") else []

/-- The `Chunk(...)` construction of `main.get_journal_content`; pydantic
rejects a missing (`None`) value for any required field. -/
def buildChunk (doc : String) (md : Metadata) : Except PyExc Chunk :=
  match md.id, md.source_doc_id, md.chunk_index, md.section_heading, md.journal,
      md.publish_year, md.usage_count, md.link with
  | some i, some sd, some ci, some sh, some j, some py, some uc, some lk =>
      .ok { id := i, source_doc_id := sd, chunk_index := ci, section_heading := sh,
            doi := md.doi, journal := j, publish_year := py, usage_count := uc,
            attributes := readAttributes md, link := lk, text := doc }
  | _, _, _, _, _, _, _, _ => .error (.validation "validation error for Chunk")

/-- `main.get_journal_content`.  The whole handler body is a
`try ... except Exception`, and `fastapi.HTTPException` subclasses
`Exception`: the explicitly raised 404 is therefore caught by the handler
itself and re-raised as a 500. -/
def get_journal_content (journal_id : String) (store : Store) : Except HTTPError (List Chunk) :=
  let inner : Except PyExc (List Chunk) :=
    let results := get_chunks_by_journal_id journal_id store
    if results.documents.isEmpty then
      .error (.http (HTTPError.mk 404
        ("Journal with ID \x27" ++ journal_id ++ "\x27 not found.")))
    else
      (results.documents.zip results.metadatas).mapM (fun p => buildChunk p.1 p.2)
  match inner with
  | .ok cs => .ok cs
  | .error e => .error (HTTPError.mk 500
      ("Failed to retrieve journal content: " ++ e.str))

/-! ## `POST /similarity_search` (`main.similarity_search`) -/

/-- Request model `SimilaritySearchRequest` (defaults `k=10`,
`min_score=0.25`). -/
structure SimilaritySearchRequest where
  query : String
  k : Int := 10
  min_score : Rat := 1/4

/-- One entry of the `results` list assembled by `main.similarity_search`. -/
structure Hit where
  chunk_id : Option String
  source_doc_id : Option String
  text : String
  score : Rat
deriving DecidableEq

/-- The hit dict built for candidate `(doc, distance, metadata)`:
`score = 1 - distance`. -/
def mkHit (t : String × Rat × Metadata) : Hit :=
  { chunk_id := t.2.2.id, source_doc_id := t.2.2.source_doc_id,
    text := t.1, score := 1 - t.2.1 }

/-- The `raw_hits` accumulation loop of `main.similarity_search`: iterate the
first (and only) query result in fetch order and keep the candidates with
`score >= min_score`.  The guard `if results and results['documents'] and
results['documents'][0]` skips the loop when there is no result row. -/
def raw_hits (min_score : Rat) (qr : QueryResults) : List Hit :=
  match qr.documents with
  | [] => []
  | docs0 :: _ =>
      (zip3 docs0 ((qr.distances.head?).getD []) ((qr.metadatas.head?).getD [])).filterMap
        (fun t => if min_score ≤ 1 - t.2.1 then some (mkHit t) else none)

/-- The comparison performed by
`sorted(raw_hits, key=lambda x: x["score"], reverse=True)`: a stable sort
that orders by score descending. -/
def hitLE (a b : Hit) : Bool := decide (b.score ≤ a.score)

/-- `formatted_results`: stable-sort the kept hits by score descending and
truncate to the first `k` entries. -/
def formatted_results (req : SimilaritySearchRequest) (qr : QueryResults) : List Hit :=
  ((raw_hits req.min_score qr).mergeSort hitLE).take req.k.toNat

/-- The chunk-id collection
`[hit["chunk_id"] for hit in formatted_results if hit.get("chunk_id")]`
(truthiness: `None` and `""` are skipped). -/
def hitIds (hits : List Hit) : List String :=
  hits.filterMap (fun h => match h.chunk_id with
    | some s => if s = "" then none else some s
    | none => none)

/-- Response body of `POST /similarity_search`. -/
structure SimResponse where
  query : String
  k : Int
  min_score : Rat
  results : List Hit

/-- `main.similarity_search`: query the store, score/filter/sort/truncate,
bump usage counts of the surviving hits, and return the response. -/
def similarity_search (req : SimilaritySearchRequest) (queryO : String → Int → QueryResults)
    (fails : Nat → Bool) (store : Store) : Except HTTPError (SimResponse × Store) :=
  let results := queryO req.query req.k
  let fr := formatted_results req results
  let chunk_ids_to_update := hitIds fr
  let store2 := if chunk_ids_to_update.isEmpty then store
    else update_usage_counts_in_chroma fails chunk_ids_to_update store
  .ok ({ query := req.query, k := req.k, min_score := req.min_score, results := fr }, store2)

/-! ## `POST /chat` (`main.chat_with_llm`) -/

/-- Request model `ChatRequest` (defaults `k=5`, `min_score=0.5`;
`min_score` is accepted but never read by the handler). -/
structure ChatRequest where
  query : String
  k : Int := 5
  min_score : Rat := 1/2

/-- The context block built for one raw result:
`f"Source ID: {source_id}\nContent: {doc}"` with
`source_id = metadata.get("source_doc_id", "Unknown")`. -/
def blockOf (p : String × Metadata) : String :=
  "Source ID: " ++ p.2.source_doc_id.getD "Unknown" ++ "\nContent: " ++ p.1

/-- The per-result source id accumulated into the citation set. -/
def srcOf (p : String × Metadata) : String :=
  p.2.source_doc_id.getD "Unknown"

/-- The accumulation loop of `main.chat_with_llm` over the raw results,
building `(context_chunks_with_source, citations, chunk_ids_to_update)`;
`metadata.get("id")` is appended only when truthy. -/
def chatFold : List (String × Metadata) → List String × List String × List String →
    List String × List String × List String
  | [], acc => acc
  | p :: rest, acc =>
      chatFold rest (acc.1 ++ [blockOf p], pySetAdd acc.2.1 (srcOf p),
        match p.2.id with
        | some s => if s = "" then acc.2.2 else acc.2.2 ++ [s]
        | none => acc.2.2)

/-- The prompt used when no context was retrieved:
`f"Answer the following question: {query}"`. -/
def bare_prompt (q : String) : String :=
  "Answer the following question: " ++ q

/-- The strict grounding prompt of `main.chat_with_llm` (apostrophes,
double quotes and backticks of the source text written as escapes). -/
def grounded_prompt (context_text q : String) : String :=
  "You are a factual research assistant. Your task is to answer the user\x27s question based ONLY on the provided context below.\n\nThe context consists of several chunks of text, each preceded by its \x27Source ID\x27.\n\nInstructions:\n1. Carefully read the user\x27s question and all the provided context.\n2. Formulate a comprehensive answer to the question using ONLY the information from the context.\n3. For EVERY piece of information you use from a source, you MUST cite it immediately after the statement using the format \x60[Source: <Source ID>]\x60.\n4. If the answer requires information from multiple sources, cite each one.\n5. If the provided context does not contain the answer, you MUST state: \"I could not find an answer in the provided documents.\" Do not use any outside knowledge.\n\nContext:\n"
    ++ context_text ++ "\n\nQuestion: " ++ q ++ "\n\nAnswer:\n"

/-- Response body of `POST /chat`. -/
structure ChatResponse where
  answer : String
  citations : List String

/-- The three accumulators of `main.chat_with_llm` built from the raw query
results: `(context_chunks_with_source, citations, chunk_ids_to_update)`.
The loop guard `if results and results['documents'] and
results['documents'][0]` is absorbed: with no result row the zip is empty
and the accumulators stay empty. -/
def chatAcc (results : QueryResults) : List String × List String × List String :=
  chatFold ((results.documents.headD []).zip (results.metadatas.headD [])) ([], [], [])

/-- `main.chat_with_llm`: query the store with `(query, k)` (ignoring
`min_score`), build context blocks and the citation set over all raw
results, bump usage counts, choose the bare or the grounded prompt, and
return the model answer with the deduplicated citations. -/
def chat_with_llm (req : ChatRequest) (queryO : String → Int → QueryResults)
    (llm : String → String) (fails : Nat → Bool) (store : Store) :
    Except HTTPError (ChatResponse × Store) :=
  let results := queryO req.query req.k
  let acc := chatAcc results
  let context_chunks_with_source := acc.1
  let citations := acc.2.1
  let chunk_ids_to_update := acc.2.2
  let store2 := if chunk_ids_to_update.isEmpty then store
    else update_usage_counts_in_chroma fails chunk_ids_to_update store
  let pc :=
    if context_chunks_with_source.isEmpty then
      (bare_prompt req.query, ([] : List String))
    else
      (grounded_prompt (String.intercalate "\n\n---\n\n" context_chunks_with_source) req.query,
        citations)
  .ok ({ answer := llm pc.1, citations := pc.2 }, store2)

/-! ## `GET /usage_statistics` (`main.get_usage_statistics`) -/

/-- Python `dict` lookup on a dict modelled as its insertion-ordered list of
key-value pairs (keys distinct). -/
def dictGet : List (String × Int) → String → Option Int
  | [], _ => none
  | p :: rest, k => if p.1 = k then some p.2 else dictGet rest k

/-- Python `dict` assignment: overwrite in place, or append a new key. -/
def dictSet : List (String × Int) → String → Int → List (String × Int)
  | [], k, v => [(k, v)]
  | p :: rest, k, v => if p.1 = k then (k, v) :: rest else p :: dictSet rest k v

/-- The `usage_data` accumulation loop of `main.get_usage_statistics`:
`usage_data[sid] = usage_data.get(sid, 0) + metadata.get("usage_count", 0)`,
guarded by the truthiness test `if source_doc_id:` (skips `None` and `""`). -/
def usage_fold : List Metadata → List (String × Int) → List (String × Int)
  | [], d => d
  | md :: rest, d =>
      match md.source_doc_id with
      | some sd =>
          if sd = "" then usage_fold rest d
          else usage_fold rest (dictSet d sd ((dictGet d sd).getD 0 + md.usage_count.getD 0))
      | none => usage_fold rest d

/-- One entry of the `GET /usage_statistics` response. -/
structure UsageEntry where
  source_doc_id : String
  total_usage_count : Int
deriving DecidableEq

/-- The comparison of `sorted(..., key=lambda x: x["total_usage_count"],
reverse=True)`. -/
def usageLE (a b : UsageEntry) : Bool := decide (b.total_usage_count ≤ a.total_usage_count)

/-- `main.get_usage_statistics`: full scan of the collection metadata
(`services.get_all_chunks_from_chroma`), group-sum by source document, sort
descending by total. -/
def get_usage_statistics (store : Store) : Except HTTPError (List UsageEntry) :=
  let all_metadatas := store.map (fun r => r.metadata)
  let usage_data := usage_fold all_metadatas []
  .ok ((usage_data.map (fun p => UsageEntry.mk p.1 p.2)).mergeSort usageLE)

/-! ## Specification instrumentation

Auxiliary definitions used only to state and prove properties of the
embedded operations. -/

/-- Number of occurrences of id `x` in the id list that the usage-update
loop processes successfully, the loop index starting at `i`. -/
def succCountFrom (fails : Nat → Bool) : Nat → List String → String → Nat
  | _, [], _ => 0
  | i, c :: rest, x =>
      (if fails i = false ∧ c = x then 1 else 0) + succCountFrom fails (i + 1) rest x

/-- The effect of `n` successful usage bumps on one record: for `n > 0` the
`usage_count` key becomes its old value (default `0`) plus `n`, and nothing
else changes. -/
def applyBumps (r : StoreRecord) (n : Nat) : StoreRecord :=
  if n = 0 then r
  else { r with metadata :=
    { r.metadata with usage_count := some (r.metadata.usage_count.getD 0 + n) } }

/-- The ids whose loop iteration does not raise, in order, the loop index
starting at `i`. -/
def survivors (fails : Nat → Bool) : Nat → List String → List String
  | _, [] => []
  | i, c :: rest =>
      if fails i then survivors fails (i + 1) rest else c :: survivors fails (i + 1) rest

/-- The source-document id a metadata record contributes to the usage
statistics: `none` when `metadata.get("source_doc_id")` is falsy
(`None` or `""`). -/
def truthySid (md : Metadata) : Option String :=
  match md.source_doc_id with
  | some s => if s = "" then none else some s
  | none => none

/-- Total usage count contributed to `sid` by a metadata scan. -/
def totalFor (metas : List Metadata) (sid : String) : Int :=
  ((metas.filter (fun md => truthySid md == some sid)).map
    (fun md => md.usage_count.getD 0)).sum

/-! ## Concrete evaluation fixtures

Small concrete inputs used to evaluate the embedded operations in closed
theorems. -/

/-- A query-result fixture: two candidates at distances `1/2` and `1/4`. -/
def qrW : QueryResults :=
  { documents := [["ta", "tb"]],
    metadatas := [[{ id := some "a", source_doc_id := some "d1", usage_count := some 0 },
                   { id := some "b", source_doc_id := some "d2", usage_count := some 0 }]],
    distances := [[1/2, 1/4]] }

/-- The hit produced for the first fixture candidate (`score = 1/2`). -/
def hitWa : Hit := { chunk_id := some "a", source_doc_id := some "d1", text := "ta", score := 1/2 }

/-- The hit produced for the second fixture candidate (`score = 3/4`). -/
def hitWb : Hit := { chunk_id := some "b", source_doc_id := some "d2", text := "tb", score := 3/4 }

/-- A search request fixture with `k = 2`. -/
def reqW : SimilaritySearchRequest := { query := "q", k := 2, min_score := 3/10 }

/-- The response produced for `reqW` against `qrW`. -/
def respW : SimResponse := { query := "q", k := 2, min_score := 3/10, results := [hitWb, hitWa] }

/-- A search request fixture with `k = 1`. -/
def reqW1 : SimilaritySearchRequest := { query := "q", k := 1, min_score := 3/10 }

/-- The response produced for `reqW1` against `qrW`: truncated to one hit. -/
def respW1 : SimResponse := { query := "q", k := 1, min_score := 3/10, results := [hitWb] }

/-- A chat request fixture (default `k`, `min_score`). -/
def creqW : ChatRequest := { query := "Q" }

/-- An empty query result: no candidate rows at all. -/
def qrEmpty : QueryResults := { documents := [], metadatas := [], distances := [] }

/-- A metadata fixture with no `source_doc_id` key. -/
def mdU : Metadata := { id := some "u" }

/-- A query result whose single candidate has no `source_doc_id`. -/
def qrU : QueryResults := { documents := [["du"]], metadatas := [[mdU]], distances := [[0]] }

/-- A store fixture for usage statistics: one document with all-zero usage
and one with usage 3. -/
def storeU : Store :=
  [StoreRecord.mk "z" "tz" { id := some "z", source_doc_id := some "dz", usage_count := some 0 },
   StoreRecord.mk "b" "tb" { id := some "b", source_doc_id := some "d2", usage_count := some 3 }]

/-- A chunk fixture whose attribute list is the singleton empty string. -/
def chunkCex : Chunk :=
  { id := "c1", source_doc_id := "dA", chunk_index := 0, section_heading := "s",
    doi := none, journal := "j", publish_year := 2020, usage_count := 0,
    attributes := [""], link := "l", text := "t" }

/-- A chunk fixture with comma-free attributes. -/
def chunkWr : Chunk :=
  { id := "c2", source_doc_id := "dB", chunk_index := 1, section_heading := "s2",
    doi := some "10.1", journal := "j2", publish_year := 2021, usage_count := 3,
    attributes := ["alpha", "beta gamma"], link := "l2", text := "t2" }

/-! # Theorems

## The usage-update loop -/

theorem update_one_usage_eq_map (store : Store) (c : String) :
    update_one_usage store c =
      store.map (fun r =>
        if r.id == c then { r with metadata := bump_usage r.metadata } else r) := by
  unfold update_one_usage
  split
  · rfl
  · next h =>
    simp only [List.any_eq_true, not_exists, not_and] at h
    have hcongr : ∀ r ∈ store,
        (if r.id == c then { r with metadata := bump_usage r.metadata } else r) = id r := by
      intro r hr
      simp only [id_eq, ite_eq_right_iff]
      intro hrc
      exact absurd hrc (by simpa using h r hr)
    rw [List.map_congr_left hcongr, List.map_id]

theorem applyBumps_id (r : StoreRecord) (n : Nat) : (applyBumps r n).id = r.id := by
  unfold applyBumps
  split <;> rfl

theorem applyBumps_text (r : StoreRecord) (n : Nat) : (applyBumps r n).text = r.text := by
  unfold applyBumps
  split <;> rfl

theorem applyBumps_bump (r : StoreRecord) (n : Nat) :
    applyBumps { r with metadata := bump_usage r.metadata } n = applyBumps r (n + 1) := by
  obtain ⟨rid, rtext, md⟩ := r
  cases md
  cases n with
  | zero => simp [applyBumps, bump_usage]
  | succ m =>
      simp [applyBumps, bump_usage, add_assoc, add_comm, add_left_comm]
      omega

theorem update_usage_go_spec (fails : Nat → Bool) (ids : List String) :
    ∀ (i : Nat) (store : Store),
      update_usage_go fails i ids store =
        store.map (fun r => applyBumps r (succCountFrom fails i ids r.id)) := by
  induction ids with
  | nil =>
      intro i store
      have hfun : (fun (r : StoreRecord) => applyBumps r (succCountFrom fails i [] r.id)) =
          fun r => r := by
        funext r
        rfl
      rw [show update_usage_go fails i [] store = store from rfl, hfun, List.map_id']
  | cons c rest ih =>
      intro i store
      rw [show update_usage_go fails i (c :: rest) store =
        update_usage_go fails (i + 1) rest
          (if fails i then store else update_one_usage store c) from rfl]
      have hstep : (if fails i then store else update_one_usage store c) =
          store.map (fun r =>
            if fails i = false ∧ r.id == c then
              { r with metadata := bump_usage r.metadata } else r) := by
        cases hf : fails i with
        | true => simp [hf]
        | false =>
            simp only [Bool.false_eq_true, if_false]
            rw [update_one_usage_eq_map]
            exact List.map_congr_left (fun r _ => by simp [hf])
      rw [hstep, ih, List.map_map]
      refine List.map_congr_left (fun r _ => ?_)
      simp only [Function.comp_apply]
      cases hf : fails i with
      | true => simp [hf, succCountFrom]
      | false =>
          by_cases hc : r.id = c
          · have h1 : (if false = false ∧ (r.id == c) = true then
                ({ r with metadata := bump_usage r.metadata } : StoreRecord) else r) =
                { r with metadata := bump_usage r.metadata } :=
              if_pos ⟨rfl, by simpa using hc⟩
            rw [h1]
            have hbid : ({ r with metadata := bump_usage r.metadata } : StoreRecord).id = r.id :=
              rfl
            rw [hbid, applyBumps_bump]
            have h2 : succCountFrom fails i (c :: rest) r.id =
                1 + succCountFrom fails (i + 1) rest r.id := by
              rw [succCountFrom, if_pos ⟨hf, hc.symm⟩]
            rw [h2, Nat.add_comm]
          · have hcb : (r.id == c) = false := by simpa using hc
            have hcx : ¬ c = r.id := fun he => hc he.symm
            simp [hf, hcb, succCountFrom, hcx]

theorem update_usage_counts_in_chroma_spec (fails : Nat → Bool) (ids : List String)
    (store : Store) :
    update_usage_counts_in_chroma fails ids store =
      store.map (fun r => applyBumps r (succCountFrom fails 0 ids r.id)) :=
  update_usage_go_spec fails ids 0 store

theorem succCountFrom_of_not_mem (fails : Nat → Bool) {ids : List String} {x : String}
    (hx : x ∉ ids) : ∀ i, succCountFrom fails i ids x = 0 := by
  induction ids with
  | nil =>
      intro i
      rfl
  | cons c rest ih =>
      intro i
      have hcx : ¬ c = x := fun he => hx (List.mem_cons.mpr (Or.inl he.symm))
      rw [succCountFrom, ih (fun h => hx (List.mem_cons_of_mem c h)),
        if_neg (fun hand => hcx hand.2)]

theorem succCountFrom_survivors (fails : Nat → Bool) (x : String) :
    ∀ (ids : List String) (i j : Nat),
      succCountFrom (fun _ => false) j (survivors fails i ids) x =
        succCountFrom fails i ids x := by
  intro ids
  induction ids with
  | nil =>
      intro i j
      rfl
  | cons c rest ih =>
      intro i j
      cases hf : fails i with
      | true => simp [survivors, succCountFrom, hf, ih]
      | false => simp [survivors, succCountFrom, hf, ih]

/-- C4 counterexample: call `incrementUsage` with the id list
`["a", "a", "b"]` (no failures) on a store holding chunks `"a"` and `"b"`,
both with `usage_count = 0`.  The id `"a"` is in the list, its chunk exists
and every update succeeds, yet afterwards its `usage_count` is `2`, not
`0 + 1`, and the other chunk `"b"` has changed as well. -/
theorem update_usage_counts_claim_cex :
    update_usage_counts_in_chroma (fun _ => false) ["a", "a", "b"]
        [StoreRecord.mk "a" "ta" { id := some "a", usage_count := some 0 },
         StoreRecord.mk "b" "tb" { id := some "b", usage_count := some 0 }] =
      [StoreRecord.mk "a" "ta" { id := some "a", usage_count := some 2 },
       StoreRecord.mk "b" "tb" { id := some "b", usage_count := some 1 }] ∧
    (some (2 : Int) ≠ some ((0 : Int) + 1)) ∧
    (StoreRecord.mk "b" "tb" { id := some "b", usage_count := some (1 : Int) } ≠
      StoreRecord.mk "b" "tb" { id := some "b", usage_count := some (0 : Int) }) := by
  refine ⟨by decide, by decide, by decide⟩

/-- C4 (amended): after a call to `incrementUsage`, every record of the
store is replaced by `applyBumps` of itself at the number of its id's
successfully processed occurrences in the id list — i.e. its `usage_count`
becomes its prior value plus that number of occurrences, every other field
of the record is unchanged, and a record whose id does not occur in the
list is wholly unchanged. -/
theorem update_usage_counts_frame (fails : Nat → Bool) (ids : List String) (store : Store) :
    update_usage_counts_in_chroma fails ids store =
      store.map (fun r => applyBumps r (succCountFrom fails 0 ids r.id)) ∧
    (∀ (r : StoreRecord) (n : Nat),
      (applyBumps r n).id = r.id ∧ (applyBumps r n).text = r.text ∧
      (applyBumps r n).metadata = (if n = 0 then r.metadata
        else { r.metadata with usage_count := some (r.metadata.usage_count.getD 0 + n) })) ∧
    (∀ r ∈ store, r.id ∉ ids → applyBumps r (succCountFrom fails 0 ids r.id) = r) := by
  refine ⟨update_usage_counts_in_chroma_spec fails ids store, ?_, ?_⟩
  · intro r n
    refine ⟨applyBumps_id r n, applyBumps_text r n, ?_⟩
    unfold applyBumps
    split
    · rfl
    · rfl
  · intro r _ hr
    rw [succCountFrom_of_not_mem fails hr 0]
    rfl

/-- C6: a usage-update loop iteration that raises is caught and suppressed:
the loop's effect on the store is exactly that of processing the surviving
ids (all remaining ids are still processed after a failure), and neither
the similarity-search response nor the chat response depends on the
failures — both endpoints still return `ok` with the same response body. -/
theorem update_usage_failures_suppressed (fails : Nat → Bool) (ids : List String)
    (store : Store) (req : SimilaritySearchRequest) (creq : ChatRequest)
    (queryO : String → Int → QueryResults) (llm : String → String) :
    update_usage_counts_in_chroma fails ids store =
      update_usage_counts_in_chroma (fun _ => false) (survivors fails 0 ids) store ∧
    (∃ p, similarity_search req queryO fails store = .ok p) ∧
    (similarity_search req queryO fails store).map Prod.fst =
      (similarity_search req queryO (fun _ => false) store).map Prod.fst ∧
    (∃ p, chat_with_llm creq queryO llm fails store = .ok p) ∧
    (chat_with_llm creq queryO llm fails store).map Prod.fst =
      (chat_with_llm creq queryO llm (fun _ => false) store).map Prod.fst := by
  refine ⟨?_, ⟨_, rfl⟩, rfl, ⟨_, rfl⟩, rfl⟩
  rw [update_usage_counts_in_chroma_spec, update_usage_counts_in_chroma_spec]
  exact List.map_congr_left (fun r _ => by rw [succCountFrom_survivors])

/-! ## `POST /chat` ignores `min_score` -/

/-- C5: two chat requests identical except for `min_score`, evaluated
against the same store behaviour (`queryO`) and the same generation model
(`llm`), produce identical results — the handler reads `query` and `k` but
never `min_score`, so the answer, the citations and the store side effect
all coincide. -/
theorem chat_with_llm_ignores_min_score (q : String) (k : Int) (ms1 ms2 : Rat)
    (queryO : String → Int → QueryResults) (llm : String → String)
    (fails : Nat → Bool) (store : Store) :
    chat_with_llm { query := q, k := k, min_score := ms1 } queryO llm fails store =
      chat_with_llm { query := q, k := k, min_score := ms2 } queryO llm fails store := rfl

/-! ## `GET /{journal_id}` on an unknown id -/

/-- C2: evaluating `get_journal_content` at a journal id with zero matching
chunks (here `"doc1"` on an empty store).  The handler raises
`HTTPException(404, ...)`, but `fastapi.HTTPException` subclasses
`Exception`, so the handler's own blanket `except Exception` catches it and
re-raises it as a 500 whose detail wraps the 404 message: the caller
observes HTTP 500, not the intended 404. -/
theorem get_journal_content_unknown_id_returns_500 :
    get_journal_content "doc1" [] =
      .error (HTTPError.mk 500
        "Failed to retrieve journal content: 404: Journal with ID \x27doc1\x27 not found.") := by
  rfl

/-! ## `POST /similarity_search` -/

theorem mergeSort_pair {α : Type} (le : α → α → Bool) (a b : α) :
    List.mergeSort [a, b] le = if le a b then [a, b] else [b, a] := by
  simp [List.mergeSort, List.splitInTwo, List.splitAt_eq, List.merge]

theorem hitLE_trans (a b c : Hit) (hab : hitLE a b) (hbc : hitLE b c) : hitLE a c := by
  simp only [hitLE, decide_eq_true_eq] at *
  exact le_trans hbc hab

theorem hitLE_total (a b : Hit) : hitLE a b || hitLE b a := by
  simp only [hitLE, Bool.or_eq_true, decide_eq_true_eq]
  exact le_total b.score a.score

theorem mem_raw_hits {m : Rat} {qr : QueryResults} {r : Hit} :
    r ∈ raw_hits m qr ↔
      ∃ t, t ∈ zip3 (qr.documents.headD []) ((qr.distances.head?).getD [])
          ((qr.metadatas.head?).getD []) ∧ m ≤ 1 - t.2.1 ∧ r = mkHit t := by
  cases hqd : qr.documents with
  | nil =>
      simp [raw_hits, hqd, zip3]
  | cons d rest =>
      simp only [raw_hits, hqd, List.headD_cons, List.mem_filterMap]
      constructor
      · rintro ⟨t, ht, hsome⟩
        by_cases hm : m ≤ 1 - t.2.1
        · rw [if_pos hm] at hsome
          exact ⟨t, ht, hm, (Option.some.inj hsome).symm⟩
        · rw [if_neg hm] at hsome
          cases hsome
      · rintro ⟨t, ht, hm, rfl⟩
        exact ⟨t, ht, by rw [if_pos hm]⟩

/-- C1: for every `similaritySearch` call (any `k > 0`, any `min_score`),
every returned result is `mkHit` of one of the fetched candidates — in
particular its score is `1 - distance` of that candidate — every returned
score is at least `min_score`, the result list is sorted by score
descending, it is the `k`-prefix of the stable sort of the kept candidates,
and any two kept candidates with equal scores stay in fetch order in that
sort. -/
theorem similarity_search_results_spec (req : SimilaritySearchRequest)
    (queryO : String → Int → QueryResults) (fails : Nat → Bool) (store : Store)
    (resp : SimResponse) (st : Store) (hk : 0 < req.k)
    (h : similarity_search req queryO fails store = .ok (resp, st)) :
    (∀ r ∈ resp.results, req.min_score ≤ r.score) ∧
    (∀ r ∈ resp.results, ∃ t,
        t ∈ zip3 ((queryO req.query req.k).documents.headD [])
          (((queryO req.query req.k).distances.head?).getD [])
          (((queryO req.query req.k).metadatas.head?).getD []) ∧
        r = mkHit t ∧ r.score = 1 - t.2.1) ∧
    List.Pairwise (fun a b => b.score ≤ a.score) resp.results ∧
    resp.results =
      ((raw_hits req.min_score (queryO req.query req.k)).mergeSort hitLE).take req.k.toNat ∧
    (∀ a b : Hit, List.Sublist [a, b] (raw_hits req.min_score (queryO req.query req.k)) →
      a.score = b.score →
      List.Sublist [a, b] ((raw_hits req.min_score (queryO req.query req.k)).mergeSort hitLE)) := by
  simp only [similarity_search, Except.ok.injEq, Prod.mk.injEq] at h
  obtain ⟨h1, -⟩ := h
  subst h1
  have hmem : ∀ r ∈ formatted_results req (queryO req.query req.k),
      r ∈ raw_hits req.min_score (queryO req.query req.k) := fun r hr =>
    List.mem_mergeSort.mp (List.mem_of_mem_take hr)
  refine ⟨?_, ?_, ?_, rfl, ?_⟩
  · intro r hr
    obtain ⟨t, -, hm, rfl⟩ := mem_raw_hits.mp (hmem r hr)
    exact hm
  · intro r hr
    obtain ⟨t, ht, hm, rfl⟩ := mem_raw_hits.mp (hmem r hr)
    exact ⟨t, ht, rfl, rfl⟩
  · have hp := List.sorted_mergeSort hitLE_trans hitLE_total
      (raw_hits req.min_score (queryO req.query req.k))
    exact List.Pairwise.sublist (List.take_sublist _ _)
      (hp.imp fun hab => of_decide_eq_true hab)
  · intro a b hsub heq
    refine List.pair_sublist_mergeSort hitLE_trans hitLE_total ?_ hsub
    simp [hitLE, heq]

/-- C8: for every `similaritySearch` call with `k > 0`, the returned result
list has at most `k` entries (the pipeline truncates the sorted kept
candidates with `[:k]`). -/
theorem similarity_search_at_most_k (req : SimilaritySearchRequest)
    (queryO : String → Int → QueryResults) (fails : Nat → Bool) (store : Store)
    (resp : SimResponse) (st : Store) (hk : 0 < req.k)
    (h : similarity_search req queryO fails store = .ok (resp, st)) :
    (resp.results.length : Int) ≤ req.k := by
  simp only [similarity_search, Except.ok.injEq, Prod.mk.injEq] at h
  obtain ⟨h1, -⟩ := h
  subst h1
  have hlen : (formatted_results req (queryO req.query req.k)).length ≤ req.k.toNat :=
    List.length_take_le _ _
  calc ((formatted_results req (queryO req.query req.k)).length : Int)
      ≤ (req.k.toNat : Int) := by exact_mod_cast hlen
    _ = req.k := Int.toNat_of_nonneg hk.le

/-- Witness for C1: the hypotheses of `similarity_search_results_spec` hold
at the fixture inputs, and the theorem applies there. -/
theorem similarity_search_results_spec_witness :
    ((0 : Int) < reqW.k ∧
      similarity_search reqW (fun _ _ => qrW) (fun _ => false) [] = .ok (respW, [])) ∧
    ((∀ r ∈ respW.results, reqW.min_score ≤ r.score) ∧
      (∀ r ∈ respW.results, ∃ t,
          t ∈ zip3 (qrW.documents.headD []) ((qrW.distances.head?).getD [])
            ((qrW.metadatas.head?).getD []) ∧
          r = mkHit t ∧ r.score = 1 - t.2.1) ∧
      List.Pairwise (fun a b => b.score ≤ a.score) respW.results ∧
      respW.results = ((raw_hits reqW.min_score qrW).mergeSort hitLE).take reqW.k.toNat ∧
      (∀ a b : Hit, List.Sublist [a, b] (raw_hits reqW.min_score qrW) →
        a.score = b.score →
        List.Sublist [a, b] ((raw_hits reqW.min_score qrW).mergeSort hitLE))) := by
  have hk : (0 : Int) < reqW.k := by norm_num [reqW]
  have hW : similarity_search reqW (fun _ _ => qrW) (fun _ => false) [] = .ok (respW, []) := by
    norm_num [reqW, respW, qrW, hitWa, hitWb, similarity_search, formatted_results, raw_hits,
      zip3, mkHit, hitLE, hitIds, mergeSort_pair, List.filterMap_cons,
      update_usage_counts_in_chroma, update_usage_go, update_one_usage]
  exact ⟨⟨hk, hW⟩,
    similarity_search_results_spec reqW (fun _ _ => qrW) (fun _ => false) [] respW [] hk hW⟩

/-- Witness for C8: with `k = 1` and two kept candidates, the fixture
response holds exactly one hit, and the theorem applies there. -/
theorem similarity_search_at_most_k_witness :
    ((0 : Int) < reqW1.k ∧
      similarity_search reqW1 (fun _ _ => qrW) (fun _ => false) [] = .ok (respW1, [])) ∧
    (respW1.results.length : Int) ≤ reqW1.k := by
  have hk : (0 : Int) < reqW1.k := by norm_num [reqW1]
  have hW : similarity_search reqW1 (fun _ _ => qrW) (fun _ => false) [] = .ok (respW1, []) := by
    norm_num [reqW1, respW1, qrW, hitWa, hitWb, similarity_search, formatted_results, raw_hits,
      zip3, mkHit, hitLE, hitIds, mergeSort_pair, List.filterMap_cons,
      update_usage_counts_in_chroma, update_usage_go, update_one_usage]
  exact ⟨⟨hk, hW⟩,
    similarity_search_at_most_k reqW1 (fun _ _ => qrW) (fun _ => false) [] respW1 [] hk hW⟩

/-! ## The attributes comma round-trip -/

theorem pySplitComma_pyJoinComma (l : List String) (hc : ∀ a ∈ l, ¬ ',' ∈ a.toList)
    (hl : l ≠ []) : pySplitComma (pyJoinComma l) = l := by
  unfold pySplitComma pyJoinComma
  rw [List.toList_asString]
  rw [List.splitOn_intercalate (l.map String.toList) ',' ?hx ?hls]
  case hx =>
    intro m hm
    obtain ⟨s, hs, rfl⟩ := List.mem_map.mp hm
    exact hc s hs
  case hls =>
    exact fun h => hl (List.map_eq_nil_iff.mp h)
  rw [List.map_map]
  have hpt : ∀ s ∈ l, (List.asString ∘ String.toList) s = s :=
    fun s _ => String.asString_toList s
  rw [List.map_congr_left hpt, List.map_id']

theorem pyJoinComma_ne_empty (l : List String) (hc : ∀ a ∈ l, ¬ ',' ∈ a.toList)
    (hl : l ≠ []) (hne : l ≠ [""]) : pyJoinComma l ≠ "" := by
  intro h
  have h2 := congrArg pySplitComma h
  rw [pySplitComma_pyJoinComma l hc hl] at h2
  exact hne (h2.trans rfl)

theorem readAttributes_chunk_metadata (c : Chunk) (hc : ∀ a ∈ c.attributes, ¬ ',' ∈ a.toList)
    (hne : c.attributes ≠ [""]) :
    readAttributes (chunk_metadata c) = c.attributes := by
  by_cases hl : c.attributes = []
  · simp only [readAttributes, chunk_metadata, pyTruthyStr, hl]
    have hj : pyJoinComma [] = "" := rfl
    rw [hj]
    simp
  · have hj : pyJoinComma c.attributes ≠ "" := pyJoinComma_ne_empty _ hc hl hne
    have ht : pyTruthyStr (some (pyJoinComma c.attributes)) = true := by
      simp [pyTruthyStr, hj]
    simp only [readAttributes, chunk_metadata, ht, if_true, Option.getD_some]
    exact pySplitComma_pyJoinComma _ hc hl

/-- C3 counterexample: the attribute list `[""]` contains no comma in any
attribute, yet uploading a chunk carrying it and reading it back through
`journalContent` yields `[]`, not `[""]` — the comma-join stores `""`,
which the reader's truthiness guard turns into the empty list. -/
theorem attributes_roundtrip_cex :
    (∀ a ∈ chunkCex.attributes, ¬ ',' ∈ a.toList) ∧
    (get_journal_content chunkCex.source_doc_id
        (upsert_chunks [chunk_record chunkCex] [])).map
      (fun cs => cs.map (fun x => x.attributes)) = .ok [[]] ∧
    ([([] : List String)] ≠ [chunkCex.attributes]) := by
  refine ⟨by decide, by decide, by decide⟩

/-- C3 (amended): for every attribute list in which no individual attribute
contains a comma, other than the singleton list of the empty string
(`[""]`), uploading a chunk with that list and reading it back via
`journalContent` returns exactly the same attribute list. -/
theorem attributes_roundtrip (c : Chunk) (hc : ∀ a ∈ c.attributes, ¬ ',' ∈ a.toList)
    (hne : c.attributes ≠ [""]) :
    (get_journal_content c.source_doc_id (upsert_chunks [chunk_record c] [])).map
      (fun cs => cs.map (fun x => x.attributes)) = .ok [c.attributes] := by
  have hstore : upsert_chunks [chunk_record c] [] = [chunk_record c] := rfl
  rw [hstore]
  have hfound : get_chunks_by_journal_id c.source_doc_id [chunk_record c] =
      { documents := [c.text], metadatas := [chunk_metadata c] } := by
    simp [get_chunks_by_journal_id, chunk_record, chunk_metadata, List.filter]
  simp only [get_journal_content, hfound]
  simp only [List.isEmpty_cons, List.zip_cons_cons, List.zip_nil_right, List.mapM_cons,
    List.mapM_nil, Bool.false_eq_true, if_false]
  simp only [buildChunk, chunk_metadata]
  simp only [bind, Except.bind, pure, Except.pure, Except.map, List.map_cons, List.map_nil,
    Except.ok.injEq, List.cons.injEq, and_true]
  exact readAttributes_chunk_metadata c hc hne

/-- Witness for C3: the round-trip theorem applies to a chunk with the
comma-free attribute list `["alpha", "beta gamma"]`. -/
theorem attributes_roundtrip_witness :
    ((∀ a ∈ chunkWr.attributes, ¬ ',' ∈ a.toList) ∧ chunkWr.attributes ≠ [""]) ∧
    (get_journal_content chunkWr.source_doc_id
        (upsert_chunks [chunk_record chunkWr] [])).map
      (fun cs => cs.map (fun x => x.attributes)) = .ok [chunkWr.attributes] := by
  have h1 : ∀ a ∈ chunkWr.attributes, ¬ ',' ∈ a.toList := by decide
  have h2 : chunkWr.attributes ≠ [""] := by decide
  exact ⟨⟨h1, h2⟩, attributes_roundtrip chunkWr h1 h2⟩

/-! ## The chat pipeline -/

theorem mem_pySetAdd (s : List String) (y x : String) : x ∈ pySetAdd s y ↔ x ∈ s ∨ x = y := by
  unfold pySetAdd
  split
  · next h =>
      constructor
      · exact Or.inl
      · rintro (h1 | rfl)
        · exact h1
        · exact h
  · simp

theorem chatFold_fst (l : List (String × Metadata)) :
    ∀ acc, (chatFold l acc).1 = acc.1 ++ l.map blockOf := by
  induction l with
  | nil =>
      intro acc
      simp [chatFold]
  | cons p rest ih =>
      intro acc
      rw [show chatFold (p :: rest) acc = chatFold rest (acc.1 ++ [blockOf p],
        pySetAdd acc.2.1 (srcOf p),
        match p.2.id with
        | some s => if s = "" then acc.2.2 else acc.2.2 ++ [s]
        | none => acc.2.2) from rfl, ih]
      simp

theorem chatFold_citations_mem (x : String) (l : List (String × Metadata)) :
    ∀ acc, (x ∈ (chatFold l acc).2.1 ↔ x ∈ acc.2.1 ∨ x ∈ l.map srcOf) := by
  induction l with
  | nil =>
      intro acc
      simp [chatFold]
  | cons p rest ih =>
      intro acc
      rw [show chatFold (p :: rest) acc = chatFold rest (acc.1 ++ [blockOf p],
        pySetAdd acc.2.1 (srcOf p),
        match p.2.id with
        | some s => if s = "" then acc.2.2 else acc.2.2 ++ [s]
        | none => acc.2.2) from rfl, ih]
      simp only [mem_pySetAdd, List.map_cons, List.mem_cons]
      tauto

/-- C9: when the store returns no candidate chunks, the prompt handed to the
generation model is exactly the bare question-answering request — no
grounding context, no citation instructions — the citations list is empty,
and the store is untouched. -/
theorem chat_no_context_spec (req : ChatRequest) (queryO : String → Int → QueryResults)
    (llm : String → String) (fails : Nat → Bool) (store : Store)
    (hempty : (queryO req.query req.k).documents.headD [] = []) :
    chat_with_llm req queryO llm fails store =
      .ok ({ answer := llm (bare_prompt req.query), citations := [] }, store) ∧
    bare_prompt req.query = "Answer the following question: " ++ req.query := by
  constructor
  · simp only [chat_with_llm, chatAcc, hempty]
    rfl
  · rfl

/-- Witness for C9: a chat request against a store returning no candidates
gets the bare prompt and no citations. -/
theorem chat_no_context_spec_witness :
    ((qrEmpty.documents.headD []) = []) ∧
    (chat_with_llm creqW (fun _ _ => qrEmpty) (fun p => p) (fun _ => false) [] =
        .ok ({ answer := bare_prompt creqW.query, citations := [] }, []) ∧
      bare_prompt creqW.query = "Answer the following question: " ++ creqW.query) :=
  ⟨rfl, chat_no_context_spec creqW (fun _ _ => qrEmpty) (fun p => p) (fun _ => false) [] rfl⟩

/-- C10: a retrieved chunk whose metadata has no `source_doc_id` key
contributes the context block `"Source ID: Unknown\nContent: <text>"` to
the prompt, and the literal string `"Unknown"` appears in the returned
citations list. -/
theorem chat_unknown_source_spec (req : ChatRequest) (queryO : String → Int → QueryResults)
    (llm : String → String) (fails : Nat → Bool) (store : Store)
    (i : Nat) (doc : String) (md : Metadata)
    (hget : (((queryO req.query req.k).documents.headD []).zip
        ((queryO req.query req.k).metadatas.headD []))[i]? = some (doc, md))
    (hsd : md.source_doc_id = none) :
    ("Source ID: Unknown\nContent: " ++ doc) ∈ (chatAcc (queryO req.query req.k)).1 ∧
    (∃ st, chat_with_llm req queryO llm fails store =
      .ok (ChatResponse.mk
        (llm (grounded_prompt
          (String.intercalate "\n\n---\n\n" (chatAcc (queryO req.query req.k)).1) req.query))
        ((chatAcc (queryO req.query req.k)).2.1), st)) ∧
    "Unknown" ∈ (chatAcc (queryO req.query req.k)).2.1 := by
  have hmem : (doc, md) ∈ ((queryO req.query req.k).documents.headD []).zip
      ((queryO req.query req.k).metadatas.headD []) := by
    exact List.getElem?_mem hget
  have hb : blockOf (doc, md) = "Source ID: Unknown\nContent: " ++ doc := by
    unfold blockOf
    rw [hsd]
    rfl
  have hA : ("Source ID: Unknown\nContent: " ++ doc) ∈ (chatAcc (queryO req.query req.k)).1 := by
    rw [chatAcc, chatFold_fst, ← hb]
    exact List.mem_append_right _ (List.mem_map_of_mem blockOf hmem)
  have hne : ((chatAcc (queryO req.query req.k)).1.isEmpty) = false := by
    rcases h : (chatAcc (queryO req.query req.k)).1 with - | -
    · rw [h] at hA
      cases hA
    · rfl
  refine ⟨hA, ?_, ?_⟩
  · refine ⟨if (chatAcc (queryO req.query req.k)).2.2.isEmpty then store
      else update_usage_counts_in_chroma fails (chatAcc (queryO req.query req.k)).2.2 store, ?_⟩
    simp only [chat_with_llm, hne, Bool.false_eq_true, if_false]
  · rw [chatAcc, chatFold_citations_mem]
    refine Or.inr ?_
    have : srcOf (doc, md) = "Unknown" := by
      unfold srcOf
      rw [hsd]
      rfl
    rw [← this]
    exact List.mem_map_of_mem srcOf hmem

/-- Witness for C10: a single retrieved chunk with no `source_doc_id` key
yields the `Unknown` context block and citation. -/
theorem chat_unknown_source_spec_witness :
    (((qrU.documents.headD []).zip (qrU.metadatas.headD []))[0]? = some ("du", mdU) ∧
      mdU.source_doc_id = none) ∧
    (("Source ID: Unknown\nContent: " ++ "du") ∈ (chatAcc qrU).1 ∧
      (∃ st, chat_with_llm creqW (fun _ _ => qrU) (fun p => p) (fun _ => false) [] =
        .ok (ChatResponse.mk
          ((fun p => p) (grounded_prompt
            (String.intercalate "\n\n---\n\n" (chatAcc qrU).1) creqW.query))
          ((chatAcc qrU).2.1), st)) ∧
      "Unknown" ∈ (chatAcc qrU).2.1) :=
  ⟨⟨rfl, rfl⟩, chat_unknown_source_spec creqW (fun _ _ => qrU) (fun p => p) (fun _ => false)
    [] 0 "du" mdU rfl rfl⟩

/-! ## Usage statistics -/

theorem usageLE_trans (a b c : UsageEntry) (hab : usageLE a b) (hbc : usageLE b c) :
    usageLE a c := by
  simp only [usageLE, decide_eq_true_eq] at *
  exact le_trans hbc hab

theorem usageLE_total (a b : UsageEntry) : usageLE a b || usageLE b a := by
  simp only [usageLE, Bool.or_eq_true, decide_eq_true_eq]
  exact le_total b.total_usage_count a.total_usage_count

theorem dictGet_dictSet_self (k : String) (v : Int) :
    ∀ d : List (String × Int), dictGet (dictSet d k v) k = some v := by
  intro d
  induction d with
  | nil => simp [dictSet, dictGet]
  | cons p rest ih =>
      by_cases h : p.1 = k
      · simp [dictSet, dictGet, h]
      · simp [dictSet, dictGet, h, ih]

theorem dictGet_dictSet_ne (k k' : String) (v : Int) (hne : k ≠ k') :
    ∀ d, dictGet (dictSet d k v) k' = dictGet d k' := by
  intro d
  induction d with
  | nil => simp [dictSet, dictGet, hne]
  | cons p rest ih =>
      by_cases h : p.1 = k
      · simp [dictSet, dictGet, h, hne, ih]
      · simp [dictSet, dictGet, h, hne, ih]

theorem mem_keys_dictSet (k : String) (v : Int) (k' : String) :
    ∀ d, (k' ∈ (dictSet d k v).map Prod.fst ↔ k' ∈ d.map Prod.fst ∨ k' = k) := by
  intro d
  induction d with
  | nil => simp [dictSet]
  | cons p rest ih =>
      by_cases h : p.1 = k
      · simp only [dictSet, h, if_true, List.map_cons, List.mem_cons, ih]
        tauto
      · simp only [dictSet, h, if_false, List.map_cons, List.mem_cons, ih]
        tauto

theorem nodup_keys_dictSet (k : String) (v : Int) :
    ∀ d, (d.map Prod.fst).Nodup → ((dictSet d k v).map Prod.fst).Nodup := by
  intro d
  induction d with
  | nil =>
      intro _
      simp [dictSet]
  | cons p rest ih =>
      intro hd
      rw [List.map_cons, List.nodup_cons] at hd
      by_cases h : p.1 = k
      · subst h
        simpa [dictSet] using hd
      · simp only [dictSet, h, if_false, List.map_cons, List.nodup_cons]
        refine ⟨?_, ih hd.2⟩
        rw [mem_keys_dictSet]
        rintro (hmem | rfl)
        · exact hd.1 hmem
        · exact h rfl

theorem totalFor_of_not_mem (k : String) (metas : List Metadata)
    (h : k ∉ metas.filterMap truthySid) : totalFor metas k = 0 := by
  unfold totalFor
  have hf : metas.filter (fun md => truthySid md == some k) = [] := by
    rw [List.filter_eq_nil_iff]
    intro md hmd hbeq
    exact h (List.mem_filterMap.mpr ⟨md, hmd, by simpa using hbeq⟩)
  rw [hf]
  rfl

theorem usage_fold_cons (md : Metadata) (rest : List Metadata) (d : List (String × Int)) :
    usage_fold (md :: rest) d =
      match truthySid md with
      | none => usage_fold rest d
      | some sd =>
          usage_fold rest (dictSet d sd ((dictGet d sd).getD 0 + md.usage_count.getD 0)) := by
  cases hsid : md.source_doc_id with
  | none => simp [usage_fold, truthySid, hsid]
  | some sd =>
      by_cases h : sd = ""
      · simp [usage_fold, truthySid, hsid, h]
      · simp [usage_fold, truthySid, hsid, h]

theorem usage_fold_get (k : String) :
    ∀ (metas : List Metadata) (d : List (String × Int)),
      dictGet (usage_fold metas d) k =
        if k ∈ metas.filterMap truthySid
        then some ((dictGet d k).getD 0 + totalFor metas k)
        else dictGet d k := by
  intro metas
  induction metas with
  | nil =>
      intro d
      simp [usage_fold, totalFor]
  | cons md rest ih =>
      intro d
      rw [usage_fold_cons, List.filterMap_cons]
      cases htr : truthySid md with
      | none =>
          have ht : totalFor (md :: rest) k = totalFor rest k := by
            simp [totalFor, List.filter_cons, htr]
          rw [ih, ht]
      | some sd =>
          by_cases hk : sd = k
          · subst hk
            have ht : totalFor (md :: rest) sd =
                md.usage_count.getD 0 + totalFor rest sd := by
              simp [totalFor, List.filter_cons, htr]
            rw [ih]
            by_cases hmem : sd ∈ rest.filterMap truthySid
            · rw [if_pos hmem, if_pos (List.mem_cons_self _ _), dictGet_dictSet_self, ht]
              simp only [Option.getD_some, Option.some.injEq]
              ring
            · rw [if_neg hmem, if_pos (List.mem_cons_self _ _), dictGet_dictSet_self, ht,
                totalFor_of_not_mem sd rest hmem]
              simp only [Option.getD_some, Option.some.injEq]
              ring
          · have ht : totalFor (md :: rest) k = totalFor rest k := by
              have hne2 : (truthySid md == some k) = false := by
                rw [htr]
                simp [hk]
              simp [totalFor, List.filter_cons, hne2]
            have hkm : (k ∈ sd :: rest.filterMap truthySid) ↔
                k ∈ rest.filterMap truthySid := by
              rw [List.mem_cons]
              constructor
              · rintro (rfl | hm)
                · exact absurd rfl hk
                · exact hm
              · exact Or.inr
            rw [ih, dictGet_dictSet_ne sd k _ hk, ht]
            by_cases hmem : k ∈ rest.filterMap truthySid
            · rw [if_pos hmem, if_pos (hkm.mpr hmem)]
            · rw [if_neg hmem, if_neg (fun h => hmem (hkm.mp h))]

theorem mem_keys_usage_fold (k : String) :
    ∀ (metas : List Metadata) (d : List (String × Int)),
      k ∈ (usage_fold metas d).map Prod.fst ↔
        k ∈ d.map Prod.fst ∨ k ∈ metas.filterMap truthySid := by
  intro metas
  induction metas with
  | nil =>
      intro d
      simp [usage_fold]
  | cons md rest ih =>
      intro d
      rw [usage_fold_cons, List.filterMap_cons]
      cases htr : truthySid md with
      | none => rw [ih]
      | some sd =>
          rw [ih, mem_keys_dictSet]
          simp only [List.mem_cons]
          tauto

theorem nodup_keys_usage_fold :
    ∀ (metas : List Metadata) (d : List (String × Int)), (d.map Prod.fst).Nodup →
      ((usage_fold metas d).map Prod.fst).Nodup := by
  intro metas
  induction metas with
  | nil =>
      intro d hd
      simpa [usage_fold] using hd
  | cons md rest ih =>
      intro d hd
      rw [usage_fold_cons]
      cases htr : truthySid md with
      | none => exact ih d hd
      | some sd => exact ih _ (nodup_keys_dictSet sd _ d hd)

theorem dictGet_of_mem :
    ∀ (d : List (String × Int)), (d.map Prod.fst).Nodup →
      ∀ p ∈ d, dictGet d p.1 = some p.2 := by
  intro d
  induction d with
  | nil =>
      intro _ p hp
      cases hp
  | cons q rest ih =>
      intro hd p hp
      rw [List.map_cons, List.nodup_cons] at hd
      rcases List.mem_cons.mp hp with rfl | hmem
      · simp [dictGet]
      · have hne : ¬ q.1 = p.1 := fun he => hd.1 (he ▸ List.mem_map_of_mem Prod.fst hmem)
        simp only [dictGet, hne, if_false]
        exact ih hd.2 p hmem

/-- C7 counterexample: a stored chunk whose `source_doc_id` is the empty
string `""` — a non-null id — produces no usage-statistics entry at all,
because the handler's truthiness guard `if source_doc_id:` drops `""` as
well as `None`. -/
theorem usage_statistics_claim_cex :
    get_usage_statistics [StoreRecord.mk "e" "t"
        { id := some "e", source_doc_id := some "", usage_count := some 5 }] = .ok [] ∧
    some "" ≠ (none : Option String) := by
  constructor
  · simp [get_usage_statistics, usage_fold]
  · decide

/-- C7 (amended): `usageStatistics` returns one entry per distinct
truthy (non-null and non-empty) `source_doc_id` occurring among stored
chunks, whose total is the sum of `usage_count` over that document's
chunks, sorted descending by total; a document all of whose chunks have
zero usage still appears, and chunks with no (or an empty) `source_doc_id`
contribute nothing. -/
theorem usage_statistics_spec (store : Store) (stats : List UsageEntry)
    (h : get_usage_statistics store = .ok stats) :
    (stats.map (fun e => e.source_doc_id)).Nodup ∧
    (∀ s : String, s ∈ stats.map (fun e => e.source_doc_id) ↔
      s ∈ (store.map (fun r => r.metadata)).filterMap truthySid) ∧
    (∀ e ∈ stats, e.total_usage_count =
      totalFor (store.map (fun r => r.metadata)) e.source_doc_id) ∧
    List.Pairwise (fun a b => b.total_usage_count ≤ a.total_usage_count) stats := by
  simp only [get_usage_statistics, Except.ok.injEq] at h
  subst h
  have hkeys : ((usage_fold (store.map (fun r => r.metadata)) []).map
      (fun p => UsageEntry.mk p.1 p.2)).map (fun e => e.source_doc_id) =
      (usage_fold (store.map (fun r => r.metadata)) []).map Prod.fst := by
    rw [List.map_map]
    rfl
  have hperm := List.mergeSort_perm
    ((usage_fold (store.map (fun r => r.metadata)) []).map (fun p => UsageEntry.mk p.1 p.2))
    usageLE
  have hpermmap := hperm.map (fun e => e.source_doc_id)
  have hnd : ((usage_fold (store.map (fun r => r.metadata)) []).map Prod.fst).Nodup :=
    nodup_keys_usage_fold (store.map (fun r => r.metadata)) [] (by simp)
  refine ⟨?_, ?_, ?_, ?_⟩
  · rw [hpermmap.nodup_iff, hkeys]
    exact hnd
  · intro s
    rw [hpermmap.mem_iff, hkeys, mem_keys_usage_fold]
    simp
  · intro e he
    have he' := List.mem_mergeSort.mp he
    obtain ⟨p, hp, rfl⟩ := List.mem_map.mp he'
    have hget : dictGet (usage_fold (store.map (fun r => r.metadata)) []) p.1 = some p.2 :=
      dictGet_of_mem _ hnd p hp
    rw [usage_fold_get] at hget
    by_cases hmem : p.1 ∈ (store.map (fun r => r.metadata)).filterMap truthySid
    · rw [if_pos hmem] at hget
      have := Option.some.inj hget
      simp only [dictGet, Option.getD_none] at this
      rw [show (UsageEntry.mk p.1 p.2).total_usage_count = p.2 from rfl,
        show (UsageEntry.mk p.1 p.2).source_doc_id = p.1 from rfl, ← this]
      ring
    · rw [if_neg hmem] at hget
      cases hget
  · exact (List.sorted_mergeSort usageLE_trans usageLE_total _).imp
      fun hab => of_decide_eq_true hab

/-- Witness for C7: the statistics of `storeU` are
`[(d2, 3), (dz, 0)]` — the all-zero document `dz` appears — and the
amended theorem applies there. -/
theorem usage_statistics_spec_witness :
    (get_usage_statistics storeU = .ok [UsageEntry.mk "d2" 3, UsageEntry.mk "dz" 0]) ∧
    (([UsageEntry.mk "d2" 3, UsageEntry.mk "dz" 0].map (fun e => e.source_doc_id)).Nodup ∧
      (∀ s : String,
        s ∈ [UsageEntry.mk "d2" 3, UsageEntry.mk "dz" 0].map (fun e => e.source_doc_id) ↔
        s ∈ (storeU.map (fun r => r.metadata)).filterMap truthySid) ∧
      (∀ e ∈ [UsageEntry.mk "d2" 3, UsageEntry.mk "dz" 0], e.total_usage_count =
        totalFor (storeU.map (fun r => r.metadata)) e.source_doc_id) ∧
      List.Pairwise (fun a b => b.total_usage_count ≤ a.total_usage_count)
        [UsageEntry.mk "d2" 3, UsageEntry.mk "dz" 0]) := by
  have hW : get_usage_statistics storeU = .ok [UsageEntry.mk "d2" 3, UsageEntry.mk "dz" 0] := by
    simp [get_usage_statistics, storeU, usage_fold, dictGet, dictSet, mergeSort_pair, usageLE]
  exact ⟨hW, usage_statistics_spec storeU _ hW⟩

end App
